import Mathlib

/-!
Shallow embedding of the IT-Backend helpdesk server (src/server.js, with the
variant handlers of src/unnamed/part_000 embedded separately where they
differ).  Tickets live in an in-memory list; request handlers are modelled as
pure functions from a server state (ticket list plus the monotonically
increasing ticketCounter) and the request data to a response and a new state.
Environment effects are passed in explicitly: the clock value of a request is
the parameter now (milliseconds, one reading per request, standing for the
Date values taken inside a handler) and the random alphanumeric suffix drawn
by Math.random inside generateTicketId is the parameter rand.
-/

namespace ITBackend

/-- JavaScript falsiness of a request-body field that is either absent
(undefined, modelled none) or a string: falsy exactly when absent or empty. -/
def falsy : Option String → Bool
  | none => true
  | some s => s == ""

/-- The JavaScript expression v \x7c\x7c dflt for an optional string v:
the default when v is falsy, otherwise the string itself. -/
def strOr (v : Option String) (dflt : String) : String :=
  if falsy v then dflt else v.getD ""

/-- A ticket record as built by the POST /api/tickets handler of
src/server.js.  createdAt and updatedAt are numeric timestamps; photo holds
the data-URL string built from an uploaded file (empty when absent). -/
structure Ticket where
  _id : String
  ticketNo : String
  name : String
  division : String
  priority : String
  description : String
  status : String
  assignee : String
  photo : String
  notes : String
  operator : String
  createdAt : Nat
  updatedAt : Nat
deriving DecidableEq, Repr

/-- The mutable module state of server.js: the tickets array and the
ticketCounter variable (initially 1). -/
structure ServerState where
  tickets : List Ticket
  ticketCounter : Nat
deriving DecidableEq, Repr

/-- Initial module state of server.js: empty array, counter 1. -/
def initState : ServerState := { tickets := [], ticketCounter := 1 }

/-- The lookup predicate shared by all id-taking handlers:
t._id === id \x7c\x7c t.ticketNo === id. -/
def matchesId (id : String) (t : Ticket) : Bool :=
  t._id == id || t.ticketNo == id

/-- generateTicketId of src/server.js: TKT- followed by the four uppercased
base-36 characters drawn from Math.random (passed in as rand). -/
def generateTicketId (rand : String) : String :=
  "TKT-" ++ rand

/-- The template string ticket_[Date.now()]_[ticketCounter++] used for _id in
the POST /api/tickets handler, with both numbers rendered in decimal. -/
def mkTicketUid (now counter : Nat) : String :=
  "ticket_" ++ Nat.repr now ++ "_" ++ Nat.repr counter

/-- The request body of POST /api/tickets; file is the data-URL string the
handler builds from req.file when a photo was uploaded. -/
structure CreateRequest where
  name : Option String
  division : Option String
  priority : Option String
  description : Option String
  file : Option String
deriving DecidableEq, Repr

/-- Outcome of the POST /api/tickets handler: 400 on missing fields, or 201
with the created ticket. -/
inductive CreateOutcome where
  | badRequest
  | created (t : Ticket)
deriving DecidableEq, Repr

/-- The object literal built by the POST /api/tickets handler for a valid
request: trimmed text fields, status Belum, empty assignee, notes and
operator, both timestamps equal to now. -/
def newTicketOf (st : ServerState) (req : CreateRequest) (now : Nat) (rand : String) :
    Ticket :=
  { _id := mkTicketUid now st.ticketCounter
    ticketNo := generateTicketId rand
    name := (req.name.getD "").trim
    division := (req.division.getD "").trim
    priority := strOr req.priority "Normal"
    description := (req.description.getD "").trim
    status := "Belum"
    assignee := ""
    photo := req.file.getD ""
    notes := ""
    operator := ""
    createdAt := now
    updatedAt := now }

/-- POST /api/tickets handler of src/server.js.  Validation rejects when any
of name, division, description is absent or the empty string (JS falsiness);
otherwise the new ticket is pushed onto the end of the array while
ticketCounter is incremented. -/
def createTicket (st : ServerState) (req : CreateRequest) (now : Nat) (rand : String) :
    CreateOutcome × ServerState :=
  if falsy req.name || falsy req.division || falsy req.description then
    (.badRequest, st)
  else
    let t : Ticket := newTicketOf st req now rand
    (.created t, { tickets := st.tickets ++ [t], ticketCounter := st.ticketCounter + 1 })

/-- The request body of PUT /api/tickets/:id. -/
structure UpdateRequest where
  status : Option String
  notes : Option String
  operator : Option String
deriving DecidableEq, Repr

/-- The object-spread assignment performed by the PUT handler on the matched
ticket: status, notes and operator each fall back to the previous value when
the supplied one is falsy, and updatedAt is refreshed. -/
def applyUpdate (req : UpdateRequest) (now : Nat) (t : Ticket) : Ticket :=
  { t with
    status := strOr req.status t.status
    notes := strOr req.notes t.notes
    operator := strOr req.operator t.operator
    updatedAt := now }

/-- The spread assignment of the resolve handler: status forced to Selesai. -/
def applyResolve (notes operatorQ : Option String) (now : Nat) (t : Ticket) : Ticket :=
  { t with
    status := "Selesai"
    notes := strOr notes t.notes
    operator := strOr operatorQ t.operator
    updatedAt := now }

/-- The spread assignment of the decline handler: status forced to Ditolak. -/
def applyDecline (notes operatorQ : Option String) (now : Nat) (t : Ticket) : Ticket :=
  { t with
    status := "Ditolak"
    notes := strOr notes t.notes
    operator := strOr operatorQ t.operator
    updatedAt := now }

/-- findIndex followed by assignment at that index: replaces the first
element satisfying p by its image under f, returning the new element and the
new list, or none when findIndex yields -1. -/
def updateFirstWith (p : Ticket → Bool) (f : Ticket → Ticket) :
    List Ticket → Option (Ticket × List Ticket)
  | [] => none
  | t :: ts =>
    if p t then some (f t, f t :: ts)
    else (updateFirstWith p f ts).map fun r => (r.1, t :: r.2)

/-- findIndex followed by splice(index, 1): removes the first element
satisfying p, returning it and the remaining list. -/
def removeFirst (p : Ticket → Bool) :
    List Ticket → Option (Ticket × List Ticket)
  | [] => none
  | t :: ts =>
    if p t then some (t, ts)
    else (removeFirst p ts).map fun r => (r.1, t :: r.2)

/-- PUT /api/tickets/:id handler: 404 (none) when no ticket matches, else the
first matching ticket is replaced by its applyUpdate image. -/
def updateTicket (st : ServerState) (id : String) (req : UpdateRequest) (now : Nat) :
    Option Ticket × ServerState :=
  match updateFirstWith (matchesId id) (applyUpdate req now) st.tickets with
  | none => (none, st)
  | some (u, ts) => (some u, { st with tickets := ts })

/-- POST /api/tickets/:id/resolve handler. -/
def resolveTicket (st : ServerState) (id : String) (notes operatorQ : Option String)
    (now : Nat) : Option Ticket × ServerState :=
  match updateFirstWith (matchesId id) (applyResolve notes operatorQ now) st.tickets with
  | none => (none, st)
  | some (u, ts) => (some u, { st with tickets := ts })

/-- POST /api/tickets/:id/decline handler. -/
def declineTicket (st : ServerState) (id : String) (notes operatorQ : Option String)
    (now : Nat) : Option Ticket × ServerState :=
  match updateFirstWith (matchesId id) (applyDecline notes operatorQ now) st.tickets with
  | none => (none, st)
  | some (u, ts) => (some u, { st with tickets := ts })

/-- DELETE /api/tickets/:id handler. -/
def deleteTicket (st : ServerState) (id : String) :
    Option Ticket × ServerState :=
  match removeFirst (matchesId id) st.tickets with
  | none => (none, st)
  | some (d, ts) => (some d, { st with tickets := ts })

/-- GET /api/tickets/:id handler of src/server.js: Array.find, no mutation. -/
def getTicket (st : ServerState) (id : String) : Option Ticket :=
  st.tickets.find? (matchesId id)

/-- The comparator (a, b) =&gt; new Date(b.createdAt) - new Date(a.createdAt)
passed to Array.sort: a may precede b exactly when the comparator is
nonpositive, that is createdAt descending. -/
def cmpCreatedAtDesc (a b : Ticket) : Bool :=
  b.createdAt ≤ a.createdAt

/-- The condition status && status !== "all" guarding the filter branch in
the GET /api/tickets handler. -/
def useFilter (statusQ : Option String) : Bool :=
  !falsy statusQ && statusQ != some "all"

/-- filteredTickets of the GET /api/tickets handler: a fresh filtered array
when a concrete status filter is given, otherwise an alias of the tickets
array itself. -/
def filteredTickets (st : ServerState) (statusQ : Option String) : List Ticket :=
  if useFilter statusQ then st.tickets.filter (fun t => t.status == statusQ.getD "")
  else st.tickets

/-- Response body of GET /api/tickets. -/
structure ListResult where
  rows : List Ticket
  totalPages : Nat
  currentPage : Nat
  total : Nat
deriving DecidableEq, Repr

/-- GET /api/tickets handler of src/server.js for positive page and limit.
filteredTickets is sorted by createdAt descending and sliced to
[(page-1)*limit, (page-1)*limit + limit); totalPages is the ceiling of
total / limit.  Array.sort mutates the array it is called on, so when no
concrete status filter was given (filteredTickets aliases tickets) the stored
collection itself ends up reordered; with a concrete filter the sort acts on
the fresh filtered array and the stored collection is untouched. -/
def listTickets (st : ServerState) (statusQ : Option String) (page limit : Nat) :
    ListResult × ServerState :=
  let filtered := filteredTickets st statusQ
  let sorted := filtered.mergeSort cmpCreatedAtDesc
  let startIndex := (page - 1) * limit
  let res : ListResult :=
    { rows := (sorted.drop startIndex).take limit
      totalPages := (filtered.length + limit - 1) / limit
      currentPage := page
      total := filtered.length }
  (res, { st with tickets := if useFilter statusQ then st.tickets else sorted })

/-- Response body of GET /api/dashboard/stats (the per-status counts shared
by both variants; the priority breakdown of server.js is not needed by any
claim). -/
structure Stats where
  totalTickets : Nat
  belumTickets : Nat
  prosesTickets : Nat
  selesaiTickets : Nat
  ditolakTickets : Nat
deriving DecidableEq, Repr

/-- GET /api/dashboard/stats handler: length of the array and one filter pass
per status label. -/
def getStats (st : ServerState) : Stats :=
  { totalTickets := st.tickets.length
    belumTickets := (st.tickets.filter fun t => t.status == "Belum").length
    prosesTickets := (st.tickets.filter fun t => t.status == "Proses").length
    selesaiTickets := (st.tickets.filter fun t => t.status == "Selesai").length
    ditolakTickets := (st.tickets.filter fun t => t.status == "Ditolak").length }

/-- Membership in the fixed set of lifecycle labels of the spec state
machine: Unresolved, InProgress, Resolved, Declined. -/
def validStatus (s : String) : Bool :=
  s == "Belum" || s == "Proses" || s == "Selesai" || s == "Ditolak"

/-- One mutating request against the server, carrying its environment inputs
(clock reading, random suffix). -/
inductive Op where
  | create (req : CreateRequest) (now : Nat) (rand : String)
  | update (id : String) (req : UpdateRequest) (now : Nat)
  | resolve (id : String) (notes operatorQ : Option String) (now : Nat)
  | decline (id : String) (notes operatorQ : Option String) (now : Nat)
  | deleteOp (id : String)
  | list (statusQ : Option String) (page limit : Nat)
deriving Repr

/-- The state transition of one request. -/
def applyOp (st : ServerState) : Op → ServerState
  | .create req now rand => (createTicket st req now rand).2
  | .update id req now => (updateTicket st id req now).2
  | .resolve id notes operatorQ now => (resolveTicket st id notes operatorQ now).2
  | .decline id notes operatorQ now => (declineTicket st id notes operatorQ now).2
  | .deleteOp id => (deleteTicket st id).2
  | .list statusQ page limit => (listTickets st statusQ page limit).2

/-- The state after a sequence of requests. -/
def runOps (st : ServerState) (ops : List Op) : ServerState :=
  ops.foldl applyOp st

/-! ### Helper lemmas about the list surgery used by the handlers -/

theorem updateFirstWith_eq_none {p : Ticket → Bool} {f : Ticket → Ticket} :
    ∀ {ts : List Ticket}, updateFirstWith p f ts = none ↔ ∀ t ∈ ts, p t = false := by
  intro ts
  induction ts with
  | nil => simp [updateFirstWith]
  | cons t ts ih =>
    by_cases hp : p t
    · simp [updateFirstWith, hp]
    · constructor
      · intro h x hx
        rcases List.mem_cons.mp hx with rfl | hx
        · simpa using hp
        · refine ih.mp ?_ x hx
          cases hrec : updateFirstWith p f ts with
          | none => rfl
          | some r => simp [updateFirstWith, hp, hrec] at h
      · intro h
        have hrec : updateFirstWith p f ts = none :=
          ih.mpr fun x hx => h x (List.mem_cons_of_mem _ hx)
        simp [updateFirstWith, hp, hrec]

theorem updateFirstWith_eq_some {p : Ticket → Bool} {f : Ticket → Ticket} :
    ∀ {ts : List Ticket} {u : Ticket} {ts2 : List Ticket},
      updateFirstWith p f ts = some (u, ts2) →
      ∃ pre t post, ts = pre ++ t :: post ∧ ts2 = pre ++ f t :: post ∧ u = f t ∧
        p t = true ∧ ∀ x ∈ pre, p x = false := by
  intro ts
  induction ts with
  | nil => intro u ts2 h; simp [updateFirstWith] at h
  | cons t ts ih =>
    intro u ts2 h
    by_cases hp : p t
    · rw [updateFirstWith, if_pos hp] at h
      obtain ⟨hu, hts⟩ := Prod.mk.injEq .. ▸ Option.some.inj h
      exact ⟨[], t, ts, by simp, by simp [← hts], hu.symm, hp, by simp⟩
    · cases hrec : updateFirstWith p f ts with
      | none => rw [updateFirstWith, if_neg hp, hrec] at h; simp at h
      | some r =>
        obtain ⟨u', ts'⟩ := r
        rw [updateFirstWith, if_neg hp, hrec] at h
        obtain ⟨hu, hts⟩ := Prod.mk.injEq .. ▸ Option.some.inj h
        obtain ⟨pre, x, post, h1, h2, h3, h4, h5⟩ := ih hrec
        refine ⟨t :: pre, x, post, by simp [h1], by simp [← hts, h2], hu ▸ h3, h4, ?_⟩
        intro y hy
        rcases List.mem_cons.mp hy with rfl | hy
        · simpa using hp
        · exact h5 y hy

theorem removeFirst_eq_none {p : Ticket → Bool} :
    ∀ {ts : List Ticket}, removeFirst p ts = none ↔ ∀ t ∈ ts, p t = false := by
  intro ts
  induction ts with
  | nil => simp [removeFirst]
  | cons t ts ih =>
    by_cases hp : p t
    · simp [removeFirst, hp]
    · constructor
      · intro h x hx
        rcases List.mem_cons.mp hx with rfl | hx
        · simpa using hp
        · refine ih.mp ?_ x hx
          cases hrec : removeFirst p ts with
          | none => rfl
          | some r => simp [removeFirst, hp, hrec] at h
      · intro h
        have hrec : removeFirst p ts = none :=
          ih.mpr fun x hx => h x (List.mem_cons_of_mem _ hx)
        simp [removeFirst, hp, hrec]

theorem removeFirst_eq_some {p : Ticket → Bool} :
    ∀ {ts : List Ticket} {d : Ticket} {ts2 : List Ticket},
      removeFirst p ts = some (d, ts2) →
      ∃ pre post, ts = pre ++ d :: post ∧ ts2 = pre ++ post ∧
        p d = true ∧ ∀ x ∈ pre, p x = false := by
  intro ts
  induction ts with
  | nil => intro d ts2 h; simp [removeFirst] at h
  | cons t ts ih =>
    intro d ts2 h
    by_cases hp : p t
    · rw [removeFirst, if_pos hp] at h
      obtain ⟨hd, hts⟩ := Prod.mk.injEq .. ▸ Option.some.inj h
      exact ⟨[], ts, by simp [← hd], by simp [← hts], hd ▸ hp, by simp⟩
    · cases hrec : removeFirst p ts with
      | none => rw [removeFirst, if_neg hp, hrec] at h; simp at h
      | some r =>
        obtain ⟨d', ts'⟩ := r
        rw [removeFirst, if_neg hp, hrec] at h
        simp only [Option.map_some', Option.some.injEq, Prod.mk.injEq] at h
        obtain ⟨hd, hts⟩ := h
        subst hd
        obtain ⟨pre, post, h1, h2, h3, h4⟩ := ih hrec
        refine ⟨t :: pre, post, by simp [h1], by simp [← hts, h2], h3, ?_⟩
        intro y hy
        rcases List.mem_cons.mp hy with rfl | hy
        · simpa using hp
        · exact h4 y hy

/-! ### Sample concrete requests used by witnesses and counterexamples -/

/-- A well-formed create request. -/
def rqA : CreateRequest :=
  { name := some "a", division := some "d", priority := none,
    description := some "x", file := none }

/-- A second well-formed create request. -/
def rqB : CreateRequest :=
  { name := some "b", division := some "d", priority := none,
    description := some "y", file := none }

/-- A create request with the name field absent. -/
def reqMissingName : CreateRequest :=
  { name := none, division := some "IT", priority := none,
    description := some "printer broken", file := none }

/-- A create request whose name is whitespace only: truthy in JavaScript,
but empty after trimming. -/
def reqWhitespaceName : CreateRequest :=
  { name := some " ", division := some "IT", priority := none,
    description := some "printer broken", file := none }

/-! ### Claim C1 -/

/-- Claim C1 (amended): createTicket fails with a ValidationError (HTTP 400)
and leaves the whole state, in particular the ticket collection and its size,
unchanged exactly when one of name, division, description is absent or the
empty string before any trimming; a value consisting only of whitespace is
truthy, passes the validation and creates a ticket. -/
theorem createTicket_validation (st : ServerState) (req : CreateRequest) (now : Nat)
    (rand : String) :
    ((falsy req.name || falsy req.division || falsy req.description) = true ↔
      createTicket st req now rand = (.badRequest, st)) ∧
    ((falsy req.name || falsy req.division || falsy req.description) = true →
      (createTicket st req now rand).2.tickets.length = st.tickets.length) := by
  constructor
  · constructor
    · intro h
      simp [createTicket, h]
    · intro h
      by_cases hc : (falsy req.name || falsy req.division || falsy req.description) = true
      · exact hc
      · simp [createTicket, hc] at h
  · intro h
    simp [createTicket, h]

/-- Witness for C1: a request with no name is rejected with 400 and the state
is returned unchanged. -/
theorem createTicket_validation_witness :
    createTicket initState reqMissingName 0 "AAAA" = (.badRequest, initState) :=
  (createTicket_validation initState reqMissingName 0 "AAAA").1.mp (by decide)

unseal Substring.takeWhileAux Substring.takeRightWhileAux in
/-- Counterexample to claim C1 as stated: the name " " is empty after
trimming, yet the create request succeeds (no 400) and the collection grows
from 0 to 1 tickets, because the handler tests JavaScript falsiness before
trimming and a whitespace-only string is truthy. -/
theorem createTicket_whitespace_not_rejected :
    (reqWhitespaceName.name.getD "").trim = "" ∧
    (createTicket initState reqWhitespaceName 0 "AAAA").1 ≠ CreateOutcome.badRequest ∧
    initState.tickets.length = 0 ∧
    (createTicket initState reqWhitespaceName 0 "AAAA").2.tickets.length = 1 := by
  decide

/-! ### Claim C9 -/

/-- Claim C9: when all three required fields are present and non-empty,
createTicket appends exactly one record to the end of the collection (and
increments the counter); the new record has status Belum, createdAt equal to
the request clock, updatedAt equal to createdAt, empty assignee, notes and
operator, and priority Normal when the field was omitted. -/
theorem createTicket_success (st : ServerState) (req : CreateRequest) (now : Nat)
    (rand : String) (h1 : falsy req.name = false) (h2 : falsy req.division = false)
    (h3 : falsy req.description = false) :
    ∃ t : Ticket,
      createTicket st req now rand =
        (.created t,
          { tickets := st.tickets ++ [t], ticketCounter := st.ticketCounter + 1 }) ∧
      t.status = "Belum" ∧ t.createdAt = now ∧ t.updatedAt = t.createdAt ∧
      t.assignee = "" ∧ t.notes = "" ∧ t.operator = "" ∧
      (req.priority = none → t.priority = "Normal") := by
  rw [createTicket, if_neg (by simp [h1, h2, h3])]
  exact ⟨_, rfl, rfl, rfl, rfl, rfl, rfl, rfl,
    fun hp => by simp [newTicketOf, strOr, falsy, hp]⟩

/-- Witness for C9 at a concrete request. -/
theorem createTicket_success_witness :
    ∃ t : Ticket,
      createTicket initState rqA 0 "AAAA" =
        (.created t,
          { tickets := initState.tickets ++ [t],
            ticketCounter := initState.ticketCounter + 1 }) ∧
      t.status = "Belum" ∧ t.createdAt = 0 ∧ t.updatedAt = t.createdAt ∧
      t.assignee = "" ∧ t.notes = "" ∧ t.operator = "" ∧
      (rqA.priority = none → t.priority = "Normal") :=
  createTicket_success initState rqA 0 "AAAA" (by decide) (by decide) (by decide)

/-! ### Common specification of the lookup-and-replace handlers -/

theorem replaceHandler_spec (f : Ticket → Ticket) (st : ServerState) (id : String)
    (result : Option Ticket × ServerState)
    (hres : result = match updateFirstWith (matchesId id) f st.tickets with
      | none => (none, st)
      | some (u, ts) => (some u, { st with tickets := ts })) :
    ((∀ t ∈ st.tickets, matchesId id t = false) → result = (none, st)) ∧
    (∀ u st2, result = (some u, st2) →
      ∃ pre t post, st.tickets = pre ++ t :: post ∧ st2.tickets = pre ++ u :: post ∧
        st2.ticketCounter = st.ticketCounter ∧ matchesId id t = true ∧
        (∀ x ∈ pre, matchesId id x = false) ∧ u = f t) := by
  subst hres
  constructor
  · intro h
    rw [updateFirstWith_eq_none.mpr h]
  · intro u st2 h
    cases hrec : updateFirstWith (matchesId id) f st.tickets with
    | none => rw [hrec] at h; simp at h
    | some r =>
      obtain ⟨u2, ts2⟩ := r
      rw [hrec] at h
      have h6 : some u2 = some u := congrArg Prod.fst h
      have h7 : ({ st with tickets := ts2 } : ServerState) = st2 := congrArg Prod.snd h
      injection h6 with h6
      subst h6
      subst h7
      obtain ⟨pre, t, post, h1, h2, h3, h4, h5⟩ := updateFirstWith_eq_some hrec
      exact ⟨pre, t, post, h1, by simpa [h3] using h2, rfl, h4, h5, h3⟩

/-! ### Claim C6 -/

/-- Claim C6 (amended): updateTicket matched by internal identifier or display
number fails with NotFound (404) and leaves the state unchanged when no ticket
matches; otherwise it replaces exactly the first matching ticket, leaving
every other ticket and every non-updatable field of the matched ticket
(identifier, display number, name, division, priority, description, assignee,
photo, createdAt) untouched, refreshes updatedAt, and overwrites status,
notes, operator only for supplied values that are non-empty: a field supplied
as the empty string is treated like an absent field and keeps its previous
value. -/
theorem updateTicket_semantics (st : ServerState) (id : String) (req : UpdateRequest)
    (now : Nat) :
    ((∀ t ∈ st.tickets, matchesId id t = false) → updateTicket st id req now = (none, st)) ∧
    (∀ u st2, updateTicket st id req now = (some u, st2) →
      ∃ pre t post,
        st.tickets = pre ++ t :: post ∧
        st2.tickets = pre ++ u :: post ∧
        st2.ticketCounter = st.ticketCounter ∧
        matchesId id t = true ∧
        (∀ x ∈ pre, matchesId id x = false) ∧
        u._id = t._id ∧ u.ticketNo = t.ticketNo ∧ u.name = t.name ∧
        u.division = t.division ∧ u.priority = t.priority ∧
        u.description = t.description ∧ u.assignee = t.assignee ∧
        u.photo = t.photo ∧ u.createdAt = t.createdAt ∧ u.updatedAt = now ∧
        u.status = strOr req.status t.status ∧
        u.notes = strOr req.notes t.notes ∧
        u.operator = strOr req.operator t.operator ∧
        (falsy req.status = true → u.status = t.status) ∧
        (falsy req.notes = true → u.notes = t.notes) ∧
        (falsy req.operator = true → u.operator = t.operator) ∧
        (∀ s, req.status = some s → s ≠ "" → u.status = s) ∧
        (∀ s, req.notes = some s → s ≠ "" → u.notes = s) ∧
        (∀ s, req.operator = some s → s ≠ "" → u.operator = s)) := by
  have hs := replaceHandler_spec (applyUpdate req now) st id (updateTicket st id req now) rfl
  refine ⟨hs.1, ?_⟩
  intro u st2 h
  obtain ⟨pre, t, post, h1, h2, h3, h4, h5, h6⟩ := hs.2 u st2 h
  subst h6
  refine ⟨pre, t, post, h1, h2, h3, h4, h5, rfl, rfl, rfl, rfl, rfl, rfl, rfl, rfl,
    rfl, rfl, rfl, rfl, rfl, ?_, ?_, ?_, ?_, ?_, ?_⟩
  · intro hf; simp [applyUpdate, strOr, hf]
  · intro hf; simp [applyUpdate, strOr, hf]
  · intro hf; simp [applyUpdate, strOr, hf]
  · intro s hsv hne
    have hb : (s == "") = false := by simpa using hne
    simp [applyUpdate, strOr, falsy, hsv, hb]
  · intro s hsv hne
    have hb : (s == "") = false := by simpa using hne
    simp [applyUpdate, strOr, falsy, hsv, hb]
  · intro s hsv hne
    have hb : (s == "") = false := by simpa using hne
    simp [applyUpdate, strOr, falsy, hsv, hb]

/-- The one-ticket state obtained by a single successful create request. -/
def st1 : ServerState := (createTicket initState rqA 0 "AAAA").2

unseal Substring.takeWhileAux Substring.takeRightWhileAux in
/-- Witness for C6: updating an identifier that matches nothing in a
one-ticket state returns 404 and the state is unchanged. -/
theorem updateTicket_semantics_witness :
    updateTicket st1 "missing" { status := some "Proses", notes := none, operator := none } 5 =
      (none, st1) :=
  (updateTicket_semantics st1 "missing"
    { status := some "Proses", notes := none, operator := none } 5).1 (by decide)

unseal Substring.takeWhileAux Substring.takeRightWhileAux in
/-- Counterexample to claim C6 as stated: the ticket stored in st1 has notes
set to "x" by an earlier update; a new update request that supplies
notes = "" (a supplied field) does not overwrite notes: the stored value
stays "x" because the handler uses notes \x7c\x7c previous, which treats an
empty supplied string like an absent one. -/
theorem updateTicket_empty_field_not_overwritten :
    ((updateTicket
        (updateTicket st1 "ticket_0_1"
          { status := none, notes := some "x", operator := none } 1).2
        "ticket_0_1" { status := none, notes := some "", operator := none } 2).2.tickets.map
      Ticket.notes) = ["x"] := by
  decide

/-! ### Claim C7 -/

/-- Claim C7: resolveTicket forces the first ticket matching the internal
identifier or the display number to status Selesai and declineTicket forces
it to Ditolak; notes and operator are overwritten only when provided (an
absent or empty supplied value keeps the previous one); every other field of
the matched ticket except updatedAt, and every other ticket, are untouched;
and for an identifier matching no ticket both handlers return 404 with the
state completely unchanged. -/
theorem resolveDecline_semantics (st : ServerState) (id : String)
    (notes operatorQ : Option String) (now : Nat) :
    ((∀ t ∈ st.tickets, matchesId id t = false) →
      resolveTicket st id notes operatorQ now = (none, st) ∧
      declineTicket st id notes operatorQ now = (none, st)) ∧
    (∀ u st2, resolveTicket st id notes operatorQ now = (some u, st2) →
      ∃ pre t post, st.tickets = pre ++ t :: post ∧ st2.tickets = pre ++ u :: post ∧
        st2.ticketCounter = st.ticketCounter ∧ matchesId id t = true ∧
        (∀ x ∈ pre, matchesId id x = false) ∧
        u.status = "Selesai" ∧
        u.notes = strOr notes t.notes ∧ u.operator = strOr operatorQ t.operator ∧
        (falsy notes = true → u.notes = t.notes) ∧
        (falsy operatorQ = true → u.operator = t.operator) ∧
        u._id = t._id ∧ u.ticketNo = t.ticketNo ∧ u.name = t.name ∧
        u.division = t.division ∧ u.priority = t.priority ∧
        u.description = t.description ∧ u.assignee = t.assignee ∧
        u.photo = t.photo ∧ u.createdAt = t.createdAt ∧ u.updatedAt = now) ∧
    (∀ u st2, declineTicket st id notes operatorQ now = (some u, st2) →
      ∃ pre t post, st.tickets = pre ++ t :: post ∧ st2.tickets = pre ++ u :: post ∧
        st2.ticketCounter = st.ticketCounter ∧ matchesId id t = true ∧
        (∀ x ∈ pre, matchesId id x = false) ∧
        u.status = "Ditolak" ∧
        u.notes = strOr notes t.notes ∧ u.operator = strOr operatorQ t.operator ∧
        (falsy notes = true → u.notes = t.notes) ∧
        (falsy operatorQ = true → u.operator = t.operator) ∧
        u._id = t._id ∧ u.ticketNo = t.ticketNo ∧ u.name = t.name ∧
        u.division = t.division ∧ u.priority = t.priority ∧
        u.description = t.description ∧ u.assignee = t.assignee ∧
        u.photo = t.photo ∧ u.createdAt = t.createdAt ∧ u.updatedAt = now) := by
  have hres := replaceHandler_spec (applyResolve notes operatorQ now) st id
    (resolveTicket st id notes operatorQ now) rfl
  have hdec := replaceHandler_spec (applyDecline notes operatorQ now) st id
    (declineTicket st id notes operatorQ now) rfl
  refine ⟨fun h => ⟨hres.1 h, hdec.1 h⟩, ?_, ?_⟩
  · intro u st2 h
    obtain ⟨pre, t, post, h1, h2, h3, h4, h5, h6⟩ := hres.2 u st2 h
    subst h6
    refine ⟨pre, t, post, h1, h2, h3, h4, h5, rfl, rfl, rfl, ?_, ?_,
      rfl, rfl, rfl, rfl, rfl, rfl, rfl, rfl, rfl, rfl⟩
    · intro hf; simp [applyResolve, strOr, hf]
    · intro hf; simp [applyResolve, strOr, hf]
  · intro u st2 h
    obtain ⟨pre, t, post, h1, h2, h3, h4, h5, h6⟩ := hdec.2 u st2 h
    subst h6
    refine ⟨pre, t, post, h1, h2, h3, h4, h5, rfl, rfl, rfl, ?_, ?_,
      rfl, rfl, rfl, rfl, rfl, rfl, rfl, rfl, rfl, rfl⟩
    · intro hf; simp [applyDecline, strOr, hf]
    · intro hf; simp [applyDecline, strOr, hf]

unseal Substring.takeWhileAux Substring.takeRightWhileAux in
/-- Witness for C7: resolving and declining a nonexistent identifier in a
one-ticket state both return 404 and leave the collection completely
unchanged (the state is returned as is). -/
theorem resolveDecline_semantics_witness :
    resolveTicket st1 "nonexistent" none none 5 = (none, st1) ∧
    declineTicket st1 "nonexistent" none none 5 = (none, st1) :=
  (resolveDecline_semantics st1 "nonexistent" none none 5).1 (by decide)

/-! ### Claim C4 -/

/-- Claim C4 (amended): every mutating handler keeps the collection in
insertion order — create appends at the end, update, resolve and decline
replace the matched ticket in place, delete removes one element keeping the
relative order of the rest, and each leaves the list untouched when it does
not mutate — and listTickets with a concrete status filter (a non-empty
status other than all) is a pure query on the collection; but listTickets
without such a filter sorts the tickets array itself in place into createdAt
descending order (a permutation of the previous collection), because the
unfiltered branch aliases the stored array and Array.sort mutates it. -/
theorem listTickets_state_effect (st : ServerState) (statusQ : Option String)
    (page limit : Nat) :
    (useFilter statusQ = true → (listTickets st statusQ page limit).2 = st) ∧
    (useFilter statusQ = false →
      (listTickets st statusQ page limit).2.tickets =
        st.tickets.mergeSort cmpCreatedAtDesc ∧
      (listTickets st statusQ page limit).2.tickets.Perm st.tickets ∧
      (listTickets st statusQ page limit).2.ticketCounter = st.ticketCounter) ∧
    (∀ (req : CreateRequest) (now : Nat) (rand : String),
      (createTicket st req now rand).2.tickets = st.tickets ∨
      ∃ t : Ticket, (createTicket st req now rand).2.tickets = st.tickets ++ [t]) ∧
    (∀ (id : String) (req : UpdateRequest) (now : Nat),
      (updateTicket st id req now).2.tickets = st.tickets ∨
      ∃ pre t u post, st.tickets = pre ++ t :: post ∧
        (updateTicket st id req now).2.tickets = pre ++ u :: post) ∧
    (∀ (id : String) (notes operatorQ : Option String) (now : Nat),
      ((resolveTicket st id notes operatorQ now).2.tickets = st.tickets ∨
        ∃ pre t u post, st.tickets = pre ++ t :: post ∧
          (resolveTicket st id notes operatorQ now).2.tickets = pre ++ u :: post) ∧
      ((declineTicket st id notes operatorQ now).2.tickets = st.tickets ∨
        ∃ pre t u post, st.tickets = pre ++ t :: post ∧
          (declineTicket st id notes operatorQ now).2.tickets = pre ++ u :: post)) ∧
    (∀ id : String,
      (deleteTicket st id).2.tickets = st.tickets ∨
      ∃ pre d post, st.tickets = pre ++ d :: post ∧
        (deleteTicket st id).2.tickets = pre ++ post) := by
  refine ⟨?_, ?_, ?_, ?_, ?_, ?_⟩
  · intro h
    simp [listTickets, h]
  · intro h
    refine ⟨by simp [listTickets, filteredTickets, h], ?_, by simp [listTickets]⟩
    have : (listTickets st statusQ page limit).2.tickets =
        st.tickets.mergeSort cmpCreatedAtDesc := by
      simp [listTickets, filteredTickets, h]
    rw [this]
    exact List.mergeSort_perm st.tickets cmpCreatedAtDesc
  · intro req now rand
    by_cases hv : (falsy req.name || falsy req.division || falsy req.description) = true
    · left
      rw [createTicket, if_pos hv]
    · right
      refine ⟨newTicketOf st req now rand, ?_⟩
      rw [createTicket, if_neg hv]
  · intro id req now
    cases hrec : updateFirstWith (matchesId id) (applyUpdate req now) st.tickets with
    | none =>
      left
      rw [updateTicket, hrec]
    | some r =>
      obtain ⟨u, ts2⟩ := r
      right
      obtain ⟨pre, t, post, h1, h2, h3, h4, h5⟩ := updateFirstWith_eq_some hrec
      refine ⟨pre, t, applyUpdate req now t, post, h1, ?_⟩
      rw [updateTicket, hrec]
      exact h2
  · intro id notes operatorQ now
    constructor
    · cases hrec : updateFirstWith (matchesId id) (applyResolve notes operatorQ now)
          st.tickets with
      | none =>
        left
        rw [resolveTicket, hrec]
      | some r =>
        obtain ⟨u, ts2⟩ := r
        right
        obtain ⟨pre, t, post, h1, h2, h3, h4, h5⟩ := updateFirstWith_eq_some hrec
        refine ⟨pre, t, applyResolve notes operatorQ now t, post, h1, ?_⟩
        rw [resolveTicket, hrec]
        exact h2
    · cases hrec : updateFirstWith (matchesId id) (applyDecline notes operatorQ now)
          st.tickets with
      | none =>
        left
        rw [declineTicket, hrec]
      | some r =>
        obtain ⟨u, ts2⟩ := r
        right
        obtain ⟨pre, t, post, h1, h2, h3, h4, h5⟩ := updateFirstWith_eq_some hrec
        refine ⟨pre, t, applyDecline notes operatorQ now t, post, h1, ?_⟩
        rw [declineTicket, hrec]
        exact h2
  · intro id
    cases hrec : removeFirst (matchesId id) st.tickets with
    | none =>
      left
      rw [deleteTicket, hrec]
    | some r =>
      obtain ⟨d, ts2⟩ := r
      right
      obtain ⟨pre, post, h1, h2, h3, h4⟩ := removeFirst_eq_some hrec
      refine ⟨pre, d, post, h1, ?_⟩
      rw [deleteTicket, hrec]
      exact h2

unseal Substring.takeWhileAux Substring.takeRightWhileAux in
/-- Witness for C4: a list request with the filter Belum leaves the one-ticket
state untouched, and a delete with a matching identifier removes exactly that
one element keeping the order of the rest. -/
theorem listTickets_state_effect_witness :
    (listTickets st1 (some "Belum") 1 100).2 = st1 ∧
    ((deleteTicket st1 "ticket_0_1").2.tickets = st1.tickets ∨
      ∃ pre d post, st1.tickets = pre ++ d :: post ∧
        (deleteTicket st1 "ticket_0_1").2.tickets = pre ++ post) :=
  ⟨(listTickets_state_effect st1 (some "Belum") 1 100).1 (by decide),
   (listTickets_state_effect st1 none 1 100).2.2.2.2.2 "ticket_0_1"⟩

/-- Two tickets created in clock order: insertion order is ascending
createdAt. -/
def stAB : ServerState :=
  runOps initState [.create rqA 0 "AAAA", .create rqB 1 "BBBB"]

unseal Substring.takeWhileAux Substring.takeRightWhileAux List.merge List.mergeSort in
/-- Counterexample to claim C4 as stated: after creating tickets a (older)
then b (newer), the collection holds them in insertion order a, b; a single
unfiltered listTickets call reorders the stored collection itself to b, a
(createdAt descending), so listTickets is not a pure query. -/
theorem listTickets_mutates_collection :
    stAB.tickets.map Ticket.name = ["a", "b"] ∧
    (listTickets stAB none 1 100).2.tickets.map Ticket.name = ["b", "a"] ∧
    (listTickets stAB none 1 100).2 ≠ stAB := by
  decide

/-! ### Claim C5 -/

/-- Claim C5: for positive page and limit, listTickets returns the filtered
tickets sorted by createdAt descending and sliced to the requested page;
total is the number of filtered tickets, totalPages is the ceiling of
total / limit, a page never holds more than limit rows, the rows are sorted
by createdAt descending, and any page past the last one yields an empty slice
rather than an error. -/
theorem listTickets_pagination (st : ServerState) (statusQ : Option String)
    (page limit : Nat) (hp : 1 ≤ page) (hl : 1 ≤ limit) :
    (listTickets st statusQ page limit).1.total = (filteredTickets st statusQ).length ∧
    (listTickets st statusQ page limit).1.totalPages =
      ((listTickets st statusQ page limit).1.total + limit - 1) / limit ∧
    (listTickets st statusQ page limit).1.rows =
      (((filteredTickets st statusQ).mergeSort cmpCreatedAtDesc).drop
        ((page - 1) * limit)).take limit ∧
    (listTickets st statusQ page limit).1.rows.length ≤ limit ∧
    List.Pairwise (fun a b => b.createdAt ≤ a.createdAt)
      (listTickets st statusQ page limit).1.rows ∧
    ((listTickets st statusQ page limit).1.totalPages < page →
      (listTickets st statusQ page limit).1.rows = []) := by
  refine ⟨rfl, rfl, rfl, ?_, ?_, ?_⟩
  · simp [listTickets]
  · have hsorted : ((filteredTickets st statusQ).mergeSort cmpCreatedAtDesc).Pairwise
        (fun a b => cmpCreatedAtDesc a b = true) := List.sorted_mergeSort
      (fun a b c hab hbc => by
        simp only [cmpCreatedAtDesc, decide_eq_true_eq] at hab hbc ⊢; omega)
      (fun a b => by
        simp only [cmpCreatedAtDesc, Bool.or_eq_true, decide_eq_true_eq]; omega)
      (filteredTickets st statusQ)
    have hrows : List.Sublist (listTickets st statusQ page limit).1.rows
        ((filteredTickets st statusQ).mergeSort cmpCreatedAtDesc) :=
      (List.take_sublist _ _).trans (List.drop_sublist _ _)
    exact (List.Pairwise.sublist hrows hsorted).imp fun h => by
      simpa [cmpCreatedAtDesc] using h
  · intro h
    have hlen : (filteredTickets st statusQ).length ≤ (page - 1) * limit := by
      have hdm := Nat.div_add_mod ((filteredTickets st statusQ).length + limit - 1) limit
      have hmod : ((filteredTickets st statusQ).length + limit - 1) % limit < limit :=
        Nat.mod_lt _ (by omega)
      have hq : ((filteredTickets st statusQ).length + limit - 1) / limit ≤ page - 1 := by
        have := h
        simp only [listTickets] at this
        omega
      have hmul : ((filteredTickets st statusQ).length + limit - 1) / limit * limit ≤
          (page - 1) * limit := Nat.mul_le_mul_right _ hq
      generalize hX : ((filteredTickets st statusQ).length + limit - 1) / limit * limit = X
        at hmul
      rw [Nat.mul_comm] at hdm
      rw [hX] at hdm
      generalize ((filteredTickets st statusQ).length + limit - 1) % limit = r at hdm hmod
      omega
    show ((((filteredTickets st statusQ).mergeSort cmpCreatedAtDesc).drop
        ((page - 1) * limit)).take limit) = []
    rw [List.drop_eq_nil_of_le (by simpa using hlen)]
    exact List.take_nil

/-- Five tickets created at clock values 0 to 4. -/
def st5 : ServerState :=
  runOps initState
    [.create rqA 0 "AAAA", .create rqA 1 "BBBB", .create rqA 2 "CCCC",
     .create rqA 3 "DDDD", .create rqA 4 "EEEE"]

unseal Substring.takeWhileAux Substring.takeRightWhileAux List.merge List.mergeSort in
/-- Witness for C5: with 5 tickets and limit 2, page 1 holds exactly 2 rows,
totalPages is 3 and total is 5; page 4 (past the last page) yields the empty
slice; and the general pagination theorem instantiates at this state. -/
theorem listTickets_pagination_witness :
    ((listTickets st5 none 1 2).1.total = (filteredTickets st5 none).length ∧
      (listTickets st5 none 1 2).1.totalPages =
        ((listTickets st5 none 1 2).1.total + 2 - 1) / 2 ∧
      (listTickets st5 none 1 2).1.rows =
        (((filteredTickets st5 none).mergeSort cmpCreatedAtDesc).drop ((1 - 1) * 2)).take 2 ∧
      (listTickets st5 none 1 2).1.rows.length ≤ 2 ∧
      List.Pairwise (fun a b => b.createdAt ≤ a.createdAt) (listTickets st5 none 1 2).1.rows ∧
      ((listTickets st5 none 1 2).1.totalPages < 1 → (listTickets st5 none 1 2).1.rows = [])) ∧
    (listTickets st5 none 1 2).1.rows.length = 2 ∧
    (listTickets st5 none 1 2).1.totalPages = 3 ∧
    (listTickets st5 none 1 2).1.total = 5 ∧
    (listTickets st5 none 4 2).1.rows = [] :=
  ⟨listTickets_pagination st5 none 1 2 (by decide) (by decide),
   by decide, by decide, by decide, by decide⟩

/-! ### Claims C2 and C8: the status-label invariant -/

/-- All stored tickets carry a status from the fixed label set. -/
def statusInv (st : ServerState) : Prop :=
  ∀ t ∈ st.tickets, validStatus t.status = true

/-- A request is status-safe when any status it supplies to the generic
update handler is absent, empty, or a member of the label set; all other
requests are unconditionally status-safe. -/
def goodOp : Op → Bool
  | .update _ req _ => falsy req.status || validStatus (req.status.getD "")
  | _ => true

theorem mem_of_updateFirstWith {p : Ticket → Bool} {f : Ticket → Ticket}
    {ts : List Ticket} {u : Ticket} {ts2 : List Ticket}
    (h : updateFirstWith p f ts = some (u, ts2)) :
    ∀ x ∈ ts2, x ∈ ts ∨ ∃ t ∈ ts, x = f t := by
  obtain ⟨pre, t, post, h1, h2, h3, h4, h5⟩ := updateFirstWith_eq_some h
  subst h1
  subst h2
  intro x hx
  rcases List.mem_append.mp hx with hx | hx
  · exact Or.inl (List.mem_append.mpr (Or.inl hx))
  · rcases List.mem_cons.mp hx with rfl | hx
    · exact Or.inr ⟨t, by simp, rfl⟩
    · exact Or.inl (by simp [hx])

theorem statusInv_applyOp {st : ServerState} {op : Op} (hop : goodOp op = true)
    (h : statusInv st) : statusInv (applyOp st op) := by
  cases op with
  | create req now rand =>
    intro t ht
    by_cases hv : (falsy req.name || falsy req.division || falsy req.description) = true
    · rw [applyOp, createTicket, if_pos hv] at ht
      exact h t ht
    · rw [applyOp, createTicket, if_neg hv] at ht
      rcases List.mem_append.mp ht with ht | ht
      · exact h t ht
      · simp only [List.mem_singleton] at ht
        subst ht
        exact (by decide : validStatus "Belum" = true)
  | update id req now =>
    intro t ht
    cases hrec : updateFirstWith (matchesId id) (applyUpdate req now) st.tickets with
    | none =>
      rw [applyOp, updateTicket, hrec] at ht
      exact h t ht
    | some r =>
      obtain ⟨u, ts2⟩ := r
      rw [applyOp, updateTicket, hrec] at ht
      rcases mem_of_updateFirstWith hrec t ht with hx | ⟨t0, ht0, rfl⟩
      · exact h t hx
      · show validStatus (strOr req.status t0.status) = true
        by_cases hf : falsy req.status = true
        · simpa [strOr, hf] using h t0 ht0
        · have hv : validStatus (req.status.getD "") = true := by
            rcases Bool.or_eq_true_iff.mp (by simpa [goodOp] using hop) with hcase | hcase
            · exact absurd hcase hf
            · exact hcase
          simpa [strOr, hf] using hv
  | resolve id notes operatorQ now =>
    intro t ht
    cases hrec : updateFirstWith (matchesId id) (applyResolve notes operatorQ now) st.tickets with
    | none =>
      rw [applyOp, resolveTicket, hrec] at ht
      exact h t ht
    | some r =>
      obtain ⟨u, ts2⟩ := r
      rw [applyOp, resolveTicket, hrec] at ht
      rcases mem_of_updateFirstWith hrec t ht with hx | ⟨t0, ht0, rfl⟩
      · exact h t hx
      · exact (by decide : validStatus "Selesai" = true)
  | decline id notes operatorQ now =>
    intro t ht
    cases hrec : updateFirstWith (matchesId id) (applyDecline notes operatorQ now) st.tickets with
    | none =>
      rw [applyOp, declineTicket, hrec] at ht
      exact h t ht
    | some r =>
      obtain ⟨u, ts2⟩ := r
      rw [applyOp, declineTicket, hrec] at ht
      rcases mem_of_updateFirstWith hrec t ht with hx | ⟨t0, ht0, rfl⟩
      · exact h t hx
      · exact (by decide : validStatus "Ditolak" = true)
  | deleteOp id =>
    intro t ht
    cases hrec : removeFirst (matchesId id) st.tickets with
    | none =>
      rw [applyOp, deleteTicket, hrec] at ht
      exact h t ht
    | some r =>
      obtain ⟨d, ts2⟩ := r
      rw [applyOp, deleteTicket, hrec] at ht
      obtain ⟨pre, post, h1, h2, h3, h4⟩ := removeFirst_eq_some hrec
      have ht2 : t ∈ ts2 := ht
      rw [h2] at ht2
      rcases List.mem_append.mp ht2 with hx | hx
      · exact h t (by rw [h1]; exact List.mem_append.mpr (Or.inl hx))
      · exact h t (by rw [h1]; exact List.mem_append.mpr (Or.inr (List.mem_cons_of_mem _ hx)))
  | list statusQ page limit =>
    intro t ht
    by_cases hfil : useFilter statusQ = true
    · rw [applyOp, listTickets] at ht
      simp only [hfil, if_pos] at ht
      exact h t ht
    · have hfil2 : filteredTickets st statusQ = st.tickets := by
        simp only [Bool.not_eq_true] at hfil
        simp [filteredTickets, hfil]
      rw [applyOp, listTickets] at ht
      simp only [hfil] at ht
      simp only [Bool.false_eq_true, if_false, List.mem_mergeSort, hfil2] at ht
      exact h t ht

theorem statusInv_runOps (ops : List Op) (st : ServerState)
    (hops : ∀ op ∈ ops, goodOp op = true) (h : statusInv st) :
    statusInv (runOps st ops) := by
  induction ops generalizing st with
  | nil => exact h
  | cons op ops ih =>
    exact ih _ (fun o ho => hops o (List.mem_cons_of_mem _ ho))
      (statusInv_applyOp (hops op (List.mem_cons_self _ _)) h)

/-- Claim C2 (amended): in every state reachable from the initial state by
create, update, resolve, decline, delete and list requests in which every
status supplied to the generic update handler is absent, empty, or a member
of the fixed label set, the status of every stored ticket belongs to the
label set Belum, Proses, Selesai, Ditolak; updateTicket itself stores an
arbitrary non-empty caller-supplied status string verbatim, so the invariant
is not preserved under updates with an off-label status. -/
theorem status_invariant_reachable (ops : List Op)
    (hops : ∀ op ∈ ops, goodOp op = true) :
    ∀ t ∈ (runOps initState ops).tickets, validStatus t.status = true :=
  statusInv_runOps ops initState hops (fun t ht => by simp [initState] at ht)

/-- A status-safe request sequence: one create, one generic update that sets
the InProgress label, one resolve. -/
def opsSafe : List Op :=
  [.create rqA 0 "AAAA",
   .update "ticket_0_1" { status := some "Proses", notes := none, operator := none } 1,
   .resolve "ticket_0_1" (some "done") none 2]

unseal Substring.takeWhileAux Substring.takeRightWhileAux in
/-- Witness for C2: the sample sequence is status-safe and every ticket in
the resulting state carries a label-set status. -/
theorem status_invariant_reachable_witness :
    (∀ op ∈ opsSafe, goodOp op = true) ∧
    ∀ t ∈ (runOps initState opsSafe).tickets, validStatus t.status = true :=
  ⟨by decide, status_invariant_reachable opsSafe (by decide)⟩

/-- The state reached by creating one ticket and updating it with the
off-label status Rusak. -/
def stRusak : ServerState :=
  runOps initState
    [.create rqA 0 "AAAA",
     .update "ticket_0_1" { status := some "Rusak", notes := none, operator := none } 1]

unseal Substring.takeWhileAux Substring.takeRightWhileAux in
/-- Counterexample to claim C2 as stated: a reachable state (one create, one
generic update whose caller supplied the arbitrary status string Rusak)
contains a ticket whose status is outside the fixed label set, because the
update handler stores any non-empty status verbatim. -/
theorem update_breaks_status_invariant :
    stRusak.tickets.map Ticket.status = ["Rusak"] ∧ validStatus "Rusak" = false := by
  decide

/-- Per-status filter counts sum to the list length as soon as every status
is a member of the label set. -/
theorem statusCounts_sum (ts : List Ticket)
    (h : ∀ t ∈ ts, validStatus t.status = true) :
    ((ts.filter fun t => t.status == "Belum").length +
      (ts.filter fun t => t.status == "Proses").length +
      (ts.filter fun t => t.status == "Selesai").length +
      (ts.filter fun t => t.status == "Ditolak").length) = ts.length := by
  induction ts with
  | nil => rfl
  | cons t ts ih =>
    have ht := h t (List.mem_cons_self _ _)
    have hsum := ih fun x hx => h x (List.mem_cons_of_mem _ hx)
    have hcases : t.status = "Belum" ∨ t.status = "Proses" ∨
        t.status = "Selesai" ∨ t.status = "Ditolak" := by
      have := ht
      simp only [validStatus, Bool.or_eq_true, beq_iff_eq] at this
      tauto
    rcases hcases with h1 | h1 | h1 | h1 <;>
      simp only [List.filter_cons, h1] <;> simp <;> omega

/-- Claim C8 (amended): in every reachable state all of whose update requests
were status-safe (equivalently, in every state in which each stored status
belongs to the label set), the four per-status counts returned by the stats
handler sum exactly to the returned total ticket count; a reachable state
holding an off-label status breaks the equation. -/
theorem stats_sum_reachable (ops : List Op)
    (hops : ∀ op ∈ ops, goodOp op = true) :
    (getStats (runOps initState ops)).belumTickets +
      (getStats (runOps initState ops)).prosesTickets +
      (getStats (runOps initState ops)).selesaiTickets +
      (getStats (runOps initState ops)).ditolakTickets =
      (getStats (runOps initState ops)).totalTickets :=
  statusCounts_sum _ (statusInv_runOps ops initState hops (fun t ht => by simp [initState] at ht))

unseal Substring.takeWhileAux Substring.takeRightWhileAux in
/-- Witness for C8 on the status-safe sample sequence. -/
theorem stats_sum_reachable_witness :
    (∀ op ∈ opsSafe, goodOp op = true) ∧
    (getStats (runOps initState opsSafe)).belumTickets +
      (getStats (runOps initState opsSafe)).prosesTickets +
      (getStats (runOps initState opsSafe)).selesaiTickets +
      (getStats (runOps initState opsSafe)).ditolakTickets =
      (getStats (runOps initState opsSafe)).totalTickets :=
  ⟨by decide, stats_sum_reachable opsSafe (by decide)⟩

unseal Substring.takeWhileAux Substring.takeRightWhileAux in
/-- Counterexample to claim C8 as stated: in the reachable state holding one
ticket with the off-label status Rusak, the four per-status counts sum to 0
while the total ticket count is 1. -/
theorem stats_sum_broken_by_offlabel_status :
    (getStats stRusak).belumTickets + (getStats stRusak).prosesTickets +
      (getStats stRusak).selesaiTickets + (getStats stRusak).ditolakTickets = 0 ∧
    (getStats stRusak).totalTickets = 1 := by
  decide

/-! ### Claim C3: identifier uniqueness.  The _id template embeds the
strictly increasing counter in decimal after the last underscore, so two
distinct counters give two distinct identifiers; the display number is only
TKT- plus the random suffix, so it is unique only while the drawn suffixes
are.  The following develops injectivity of the decimal rendering. -/

/-- Decimal value of a digit-character list, most significant first, under an
accumulator. -/
def decDigits : List Char → Nat → Nat
  | [], acc => acc
  | c :: cs, acc => decDigits cs (acc * 10 + (c.toNat - 48))

/-- 10 to the number of decimal digits of n. -/
def pw10 (n : Nat) : Nat :=
  if h : n < 10 then 10 else 10 * pw10 (n / 10)
decreasing_by exact Nat.div_lt_self (by omega) (by omega)

theorem digitChar_toNat (m : Nat) (h : m < 10) : (Nat.digitChar m).toNat - 48 = m := by
  interval_cases m <;> decide

theorem digitChar_ne_underscore (m : Nat) (h : m < 10) : Nat.digitChar m ≠ '_' := by
  interval_cases m <;> decide

theorem toDigitsCore_decode (fuel : Nat) :
    ∀ (n : Nat) (ds : List Char) (acc : Nat), n < fuel →
      decDigits (Nat.toDigitsCore 10 fuel n ds) acc =
        decDigits ds (acc * pw10 n + n) := by
  induction fuel with
  | zero => intro n ds acc h; omega
  | succ fuel ih =>
    intro n ds acc h
    simp only [Nat.toDigitsCore]
    by_cases h0 : n / 10 = 0
    · rw [if_pos h0]
      have hn : n < 10 := by omega
      rw [decDigits, digitChar_toNat (n % 10) (Nat.mod_lt _ (by omega)),
        Nat.mod_eq_of_lt hn]
      have hpw : pw10 n = 10 := by rw [pw10]; exact dif_pos hn
      rw [hpw]
    · rw [if_neg h0]
      have hlt : n / 10 < fuel := by
        have hself : n / 10 < n := Nat.div_lt_self (by omega) (by omega)
        omega
      rw [ih (n / 10) (Nat.digitChar (n % 10) :: ds) acc hlt]
      rw [decDigits, digitChar_toNat (n % 10) (Nat.mod_lt _ (by omega))]
      congr 1
      have hpw : pw10 n = 10 * pw10 (n / 10) := by
        rw [pw10]
        exact dif_neg (by omega)
      have hdm : n / 10 * 10 + n % 10 = n := by omega
      calc (acc * pw10 (n / 10) + n / 10) * 10 + n % 10
          = acc * pw10 (n / 10) * 10 + (n / 10 * 10 + n % 10) := by ring
        _ = acc * (10 * pw10 (n / 10)) + n := by rw [hdm]; ring
        _ = acc * pw10 n + n := by rw [hpw]

theorem decDigits_toDigits (n : Nat) : decDigits (Nat.toDigits 10 n) 0 = n := by
  rw [Nat.toDigits, toDigitsCore_decode (n + 1) n [] 0 (Nat.lt_succ_self n)]
  simp [decDigits]

theorem repr_injective {m n : Nat} (h : Nat.repr m = Nat.repr n) : m = n := by
  have hd : Nat.toDigits 10 m = Nat.toDigits 10 n := by
    have hdata := congrArg String.data h
    simpa [Nat.repr, List.asString] using hdata
  calc m = decDigits (Nat.toDigits 10 m) 0 := (decDigits_toDigits m).symm
    _ = decDigits (Nat.toDigits 10 n) 0 := by rw [hd]
    _ = n := decDigits_toDigits n

theorem toDigitsCore_no_underscore (fuel : Nat) :
    ∀ (n : Nat) (ds : List Char), '_' ∉ ds →
      '_' ∉ Nat.toDigitsCore 10 fuel n ds := by
  induction fuel with
  | zero => intro n ds h; simpa [Nat.toDigitsCore] using h
  | succ fuel ih =>
    intro n ds h
    simp only [Nat.toDigitsCore]
    by_cases h0 : n / 10 = 0
    · rw [if_pos h0]
      intro hmem
      rcases List.mem_cons.mp hmem with he | he
      · exact digitChar_ne_underscore (n % 10) (Nat.mod_lt _ (by omega)) he.symm
      · exact h he
    · rw [if_neg h0]
      refine ih (n / 10) _ ?_
      intro hmem
      rcases List.mem_cons.mp hmem with he | he
      · exact digitChar_ne_underscore (n % 10) (Nat.mod_lt _ (by omega)) he.symm
      · exact h he

theorem repr_no_underscore (n : Nat) : '_' ∉ (Nat.repr n).data := by
  have := toDigitsCore_no_underscore (n + 1) n [] (by simp)
  simpa [Nat.repr, Nat.toDigits, List.asString] using this

theorem sep_suffix_eq {xs ys as bs : List Char}
    (ha : '_' ∉ as) (hb : '_' ∉ bs)
    (h : xs ++ '_' :: as = ys ++ '_' :: bs) : as = bs := by
  induction xs generalizing ys with
  | nil =>
    cases ys with
    | nil => simpa using h
    | cons y ys =>
      simp only [List.nil_append, List.cons_append, List.cons.injEq] at h
      exact absurd (h.2 ▸ List.mem_append.mpr
        (Or.inr (List.mem_cons_self _ _)) : ('_' : Char) ∈ as) ha
  | cons x xs ih =>
    cases ys with
    | nil =>
      simp only [List.cons_append, List.nil_append, List.cons.injEq] at h
      exact absurd (h.2 ▸ List.mem_append.mpr
        (Or.inr (List.mem_cons_self _ _)) : ('_' : Char) ∈ bs) hb
    | cons y ys =>
      simp only [List.cons_append, List.cons.injEq] at h
      exact ih h.2

theorem mkTicketUid_inj {n1 c1 n2 c2 : Nat}
    (h : mkTicketUid n1 c1 = mkTicketUid n2 c2) : c1 = c2 := by
  have hdata := congrArg String.data h
  simp only [mkTicketUid, String.data_append] at hdata
  have h1 : ("ticket_".data ++ (Nat.repr n1).data) ++ '_' :: (Nat.repr c1).data =
      ("ticket_".data ++ (Nat.repr n2).data) ++ '_' :: (Nat.repr c2).data := by
    simpa [List.append_assoc] using hdata
  exact repr_injective (String.ext
    (sep_suffix_eq (repr_no_underscore c1) (repr_no_underscore c2) h1))

theorem generateTicketId_inj {r1 r2 : String}
    (h : generateTicketId r1 = generateTicketId r2) : r1 = r2 := by
  have hdata := congrArg String.data h
  simp only [generateTicketId, String.data_append] at hdata
  exact String.ext (List.append_cancel_left hdata)

/-- Equation for the validation-passing branch of createTicket. -/
theorem createTicket_pos {st : ServerState} {req : CreateRequest} {now : Nat}
    {rand : String}
    (hv : (falsy req.name || falsy req.division || falsy req.description) = false) :
    createTicket st req now rand =
      (.created (newTicketOf st req now rand),
        { tickets := st.tickets ++ [newTicketOf st req now rand],
          ticketCounter := st.ticketCounter + 1 }) := by
  rw [createTicket, if_neg (by simp [hv])]

/-- Invariant carried through every request: the stored identifiers are
pairwise distinct and each one is the uid template at some counter value
below the current ticketCounter. -/
def uidsOk (st : ServerState) : Prop :=
  (st.tickets.map Ticket._id).Nodup ∧
  ∀ t ∈ st.tickets, ∃ n c, c < st.ticketCounter ∧ t._id = mkTicketUid n c

theorem updateFirstWith_map_eq (g : Ticket → String) (p : Ticket → Bool)
    (f : Ticket → Ticket) (hf : ∀ t, g (f t) = g t) :
    ∀ {ts : List Ticket} {u : Ticket} {ts2 : List Ticket},
      updateFirstWith p f ts = some (u, ts2) → ts2.map g = ts.map g := by
  intro ts u ts2 h
  obtain ⟨pre, t, post, h1, h2, h3, h4, h5⟩ := updateFirstWith_eq_some h
  subst h1
  subst h2
  simp [hf]

theorem removeFirst_map_sublist {g : Ticket → String} {p : Ticket → Bool}
    {ts : List Ticket} {d : Ticket} {ts2 : List Ticket}
    (h : removeFirst p ts = some (d, ts2)) :
    List.Sublist (ts2.map g) (ts.map g) := by
  obtain ⟨pre, post, h1, h2, h3, h4⟩ := removeFirst_eq_some h
  subst h1
  subst h2
  exact ((List.sublist_cons_self d post).append_left pre).map g

theorem uidsOk_applyOp {st : ServerState} (op : Op) (h : uidsOk st) :
    uidsOk (applyOp st op) := by
  obtain ⟨hnd, hbound⟩ := h
  cases op with
  | create req now rand =>
    by_cases hv : (falsy req.name || falsy req.division || falsy req.description) = true
    · rw [applyOp, createTicket, if_pos hv]
      exact ⟨hnd, hbound⟩
    · have hvf : (falsy req.name || falsy req.division || falsy req.description) = false := by
        simpa using hv
      rw [applyOp, createTicket_pos hvf]
      refine ⟨?_, ?_⟩
      · show ((st.tickets ++ [newTicketOf st req now rand]).map Ticket._id).Nodup
        rw [List.map_append, List.map_singleton, List.nodup_append]
        refine ⟨hnd, by simp, ?_⟩
        intro x hx hx2
        simp only [List.mem_singleton] at hx2
        subst hx2
        obtain ⟨t, ht, hid⟩ := List.mem_map.mp hx
        obtain ⟨n, c, hc, hidEq⟩ := hbound t ht
        have hcc : c = st.ticketCounter :=
          @mkTicketUid_inj n c now st.ticketCounter (hidEq.symm.trans hid)
        omega
      · show ∀ t ∈ st.tickets ++ [newTicketOf st req now rand],
          ∃ n c, c < st.ticketCounter + 1 ∧ t._id = mkTicketUid n c
        intro t ht
        rcases List.mem_append.mp ht with ht | ht
        · obtain ⟨n, c, hc, hidEq⟩ := hbound t ht
          exact ⟨n, c, by omega, hidEq⟩
        · simp only [List.mem_singleton] at ht
          subst ht
          exact ⟨now, st.ticketCounter, by omega, rfl⟩
  | update id req now =>
    cases hrec : updateFirstWith (matchesId id) (applyUpdate req now) st.tickets with
    | none =>
      rw [applyOp, updateTicket, hrec]
      exact ⟨hnd, hbound⟩
    | some r =>
      obtain ⟨u, ts2⟩ := r
      rw [applyOp, updateTicket, hrec]
      have hmap : ts2.map Ticket._id = st.tickets.map Ticket._id :=
        updateFirstWith_map_eq Ticket._id (matchesId id) (applyUpdate req now)
          (fun t => rfl) hrec
      refine ⟨?_, ?_⟩
      · show (ts2.map Ticket._id).Nodup
        rw [hmap]
        exact hnd
      · show ∀ t ∈ ts2, ∃ n c, c < st.ticketCounter ∧ t._id = mkTicketUid n c
        intro t ht
        have hmm : t._id ∈ st.tickets.map Ticket._id := by
          rw [← hmap]
          exact List.mem_map_of_mem _ ht
        obtain ⟨t0, ht0, hid⟩ := List.mem_map.mp hmm
        obtain ⟨n, c, hc, hidEq⟩ := hbound t0 ht0
        exact ⟨n, c, hc, by rw [← hid, hidEq]⟩
  | resolve id notes operatorQ now =>
    cases hrec : updateFirstWith (matchesId id) (applyResolve notes operatorQ now) st.tickets with
    | none =>
      rw [applyOp, resolveTicket, hrec]
      exact ⟨hnd, hbound⟩
    | some r =>
      obtain ⟨u, ts2⟩ := r
      rw [applyOp, resolveTicket, hrec]
      have hmap : ts2.map Ticket._id = st.tickets.map Ticket._id :=
        updateFirstWith_map_eq Ticket._id (matchesId id)
          (applyResolve notes operatorQ now) (fun t => rfl) hrec
      refine ⟨?_, ?_⟩
      · show (ts2.map Ticket._id).Nodup
        rw [hmap]
        exact hnd
      · show ∀ t ∈ ts2, ∃ n c, c < st.ticketCounter ∧ t._id = mkTicketUid n c
        intro t ht
        have hmm : t._id ∈ st.tickets.map Ticket._id := by
          rw [← hmap]
          exact List.mem_map_of_mem _ ht
        obtain ⟨t0, ht0, hid⟩ := List.mem_map.mp hmm
        obtain ⟨n, c, hc, hidEq⟩ := hbound t0 ht0
        exact ⟨n, c, hc, by rw [← hid, hidEq]⟩
  | decline id notes operatorQ now =>
    cases hrec : updateFirstWith (matchesId id) (applyDecline notes operatorQ now) st.tickets with
    | none =>
      rw [applyOp, declineTicket, hrec]
      exact ⟨hnd, hbound⟩
    | some r =>
      obtain ⟨u, ts2⟩ := r
      rw [applyOp, declineTicket, hrec]
      have hmap : ts2.map Ticket._id = st.tickets.map Ticket._id :=
        updateFirstWith_map_eq Ticket._id (matchesId id)
          (applyDecline notes operatorQ now) (fun t => rfl) hrec
      refine ⟨?_, ?_⟩
      · show (ts2.map Ticket._id).Nodup
        rw [hmap]
        exact hnd
      · show ∀ t ∈ ts2, ∃ n c, c < st.ticketCounter ∧ t._id = mkTicketUid n c
        intro t ht
        have hmm : t._id ∈ st.tickets.map Ticket._id := by
          rw [← hmap]
          exact List.mem_map_of_mem _ ht
        obtain ⟨t0, ht0, hid⟩ := List.mem_map.mp hmm
        obtain ⟨n, c, hc, hidEq⟩ := hbound t0 ht0
        exact ⟨n, c, hc, by rw [← hid, hidEq]⟩
  | deleteOp id =>
    cases hrec : removeFirst (matchesId id) st.tickets with
    | none =>
      rw [applyOp, deleteTicket, hrec]
      exact ⟨hnd, hbound⟩
    | some r =>
      obtain ⟨d, ts2⟩ := r
      rw [applyOp, deleteTicket, hrec]
      refine ⟨?_, ?_⟩
      · show (ts2.map Ticket._id).Nodup
        exact List.Nodup.sublist (removeFirst_map_sublist hrec) hnd
      · show ∀ t ∈ ts2, ∃ n c, c < st.ticketCounter ∧ t._id = mkTicketUid n c
        intro t ht
        obtain ⟨pre, post, h1, h2, h3, h4⟩ := removeFirst_eq_some hrec
        subst h2
        apply hbound
        rw [h1]
        rcases List.mem_append.mp ht with hx | hx
        · exact List.mem_append.mpr (Or.inl hx)
        · exact List.mem_append.mpr (Or.inr (List.mem_cons_of_mem _ hx))
  | list statusQ page limit =>
    by_cases hfil : useFilter statusQ = true
    · rw [applyOp, listTickets]
      simp only [hfil, if_pos]
      exact ⟨hnd, hbound⟩
    · have hfalse : useFilter statusQ = false := by simpa using hfil
      have hfid : filteredTickets st statusQ = st.tickets := by
        simp [filteredTickets, hfalse]
      have hperm : ((filteredTickets st statusQ).mergeSort cmpCreatedAtDesc).Perm
          st.tickets := by
        rw [hfid]
        exact List.mergeSort_perm st.tickets cmpCreatedAtDesc
      rw [applyOp, listTickets]
      simp only [hfalse, Bool.false_eq_true, if_false]
      refine ⟨?_, ?_⟩
      · show (((filteredTickets st statusQ).mergeSort cmpCreatedAtDesc).map Ticket._id).Nodup
        exact ((hperm.map Ticket._id).nodup_iff).mpr hnd
      · show ∀ t ∈ (filteredTickets st statusQ).mergeSort cmpCreatedAtDesc,
          ∃ n c, c < st.ticketCounter ∧ t._id = mkTicketUid n c
        intro t ht
        exact hbound t (hperm.mem_iff.mp ht)

theorem uidsOk_runOps (ops : List Op) (st : ServerState) (h : uidsOk st) :
    uidsOk (runOps st ops) := by
  induction ops generalizing st with
  | nil => exact h
  | cons op ops ih => exact ih _ (uidsOk_applyOp op h)

/-- The random suffixes drawn by the create requests of a sequence, in
order. -/
def createRands : List Op → List String
  | [] => []
  | Op.create _ _ rand :: ops => rand :: createRands ops
  | _ :: ops => createRands ops

theorem tno_step_other {st : ServerState} (op : Op)
    (hnc : ∀ req now rand, op ≠ Op.create req now rand) :
    ((st.tickets.map Ticket.ticketNo).Nodup →
      ((applyOp st op).tickets.map Ticket.ticketNo).Nodup) ∧
    (∀ s ∈ (applyOp st op).tickets.map Ticket.ticketNo,
      s ∈ st.tickets.map Ticket.ticketNo) := by
  cases op with
  | create req now rand => exact absurd rfl (hnc req now rand)
  | update id req now =>
    cases hrec : updateFirstWith (matchesId id) (applyUpdate req now) st.tickets with
    | none =>
      rw [applyOp, updateTicket, hrec]
      exact ⟨fun hnd => hnd, fun s hs => hs⟩
    | some r =>
      obtain ⟨u, ts2⟩ := r
      rw [applyOp, updateTicket, hrec]
      have hmap := updateFirstWith_map_eq Ticket.ticketNo (matchesId id)
        (applyUpdate req now) (fun t => rfl) hrec
      constructor
      · intro hnd
        show (ts2.map Ticket.ticketNo).Nodup
        rw [hmap]
        exact hnd
      · intro s hs
        have hs2 : s ∈ ts2.map Ticket.ticketNo := hs
        rwa [hmap] at hs2
  | resolve id notes operatorQ now =>
    cases hrec : updateFirstWith (matchesId id) (applyResolve notes operatorQ now) st.tickets with
    | none =>
      rw [applyOp, resolveTicket, hrec]
      exact ⟨fun hnd => hnd, fun s hs => hs⟩
    | some r =>
      obtain ⟨u, ts2⟩ := r
      rw [applyOp, resolveTicket, hrec]
      have hmap := updateFirstWith_map_eq Ticket.ticketNo (matchesId id)
        (applyResolve notes operatorQ now) (fun t => rfl) hrec
      constructor
      · intro hnd
        show (ts2.map Ticket.ticketNo).Nodup
        rw [hmap]
        exact hnd
      · intro s hs
        have hs2 : s ∈ ts2.map Ticket.ticketNo := hs
        rwa [hmap] at hs2
  | decline id notes operatorQ now =>
    cases hrec : updateFirstWith (matchesId id) (applyDecline notes operatorQ now) st.tickets with
    | none =>
      rw [applyOp, declineTicket, hrec]
      exact ⟨fun hnd => hnd, fun s hs => hs⟩
    | some r =>
      obtain ⟨u, ts2⟩ := r
      rw [applyOp, declineTicket, hrec]
      have hmap := updateFirstWith_map_eq Ticket.ticketNo (matchesId id)
        (applyDecline notes operatorQ now) (fun t => rfl) hrec
      constructor
      · intro hnd
        show (ts2.map Ticket.ticketNo).Nodup
        rw [hmap]
        exact hnd
      · intro s hs
        have hs2 : s ∈ ts2.map Ticket.ticketNo := hs
        rwa [hmap] at hs2
  | deleteOp id =>
    cases hrec : removeFirst (matchesId id) st.tickets with
    | none =>
      rw [applyOp, deleteTicket, hrec]
      exact ⟨fun hnd => hnd, fun s hs => hs⟩
    | some r =>
      obtain ⟨d, ts2⟩ := r
      rw [applyOp, deleteTicket, hrec]
      have hsub : List.Sublist (ts2.map Ticket.ticketNo)
          (st.tickets.map Ticket.ticketNo) := removeFirst_map_sublist hrec
      exact ⟨fun hnd => List.Nodup.sublist hsub hnd, fun s hs => hsub.subset hs⟩
  | list statusQ page limit =>
    by_cases hfil : useFilter statusQ = true
    · rw [applyOp, listTickets]
      simp only [hfil, if_pos]
      exact ⟨fun hnd => hnd, fun s hs => hs⟩
    · have hfalse : useFilter statusQ = false := by simpa using hfil
      have hfid : filteredTickets st statusQ = st.tickets := by
        simp [filteredTickets, hfalse]
      have hperm : (((filteredTickets st statusQ).mergeSort cmpCreatedAtDesc).map
          Ticket.ticketNo).Perm (st.tickets.map Ticket.ticketNo) := by
        refine List.Perm.map _ ?_
        rw [hfid]
        exact List.mergeSort_perm st.tickets cmpCreatedAtDesc
      rw [applyOp, listTickets]
      simp only [hfalse, Bool.false_eq_true, if_false]
      exact ⟨fun hnd => hperm.nodup_iff.mpr hnd, fun s hs => hperm.mem_iff.mp hs⟩

theorem tno_nodup_runOps (ops : List Op) :
    ∀ st : ServerState,
      (st.tickets.map Ticket.ticketNo).Nodup →
      (createRands ops).Nodup →
      (∀ s ∈ st.tickets.map Ticket.ticketNo, ∀ r ∈ createRands ops,
        s ≠ generateTicketId r) →
      ((runOps st ops).tickets.map Ticket.ticketNo).Nodup := by
  induction ops with
  | nil => intro st hnd _ _; exact hnd
  | cons op ops ih =>
    intro st hnd hrands hfresh
    show ((runOps (applyOp st op) ops).tickets.map Ticket.ticketNo).Nodup
    by_cases hisc : ∃ req now rand, op = Op.create req now rand
    · obtain ⟨req, now, rand, rfl⟩ := hisc
      have hr : createRands (Op.create req now rand :: ops) = rand :: createRands ops := rfl
      rw [hr] at hrands hfresh
      by_cases hv : (falsy req.name || falsy req.division || falsy req.description) = true
      · have happ : applyOp st (Op.create req now rand) = st := by
          rw [applyOp, createTicket, if_pos hv]
        rw [happ]
        exact ih st hnd (List.Nodup.of_cons hrands)
          (fun s hs r hr2 => hfresh s hs r (List.mem_cons_of_mem _ hr2))
      · have hvf : (falsy req.name || falsy req.division || falsy req.description) = false := by
          simpa using hv
        have happ : applyOp st (Op.create req now rand) =
            { tickets := st.tickets ++ [newTicketOf st req now rand],
              ticketCounter := st.ticketCounter + 1 } := by
          rw [applyOp, createTicket_pos hvf]
        rw [happ]
        have hrand_notin : rand ∉ createRands ops := (List.nodup_cons.mp hrands).1
        have hnd2 : ((st.tickets ++ [newTicketOf st req now rand]).map
            Ticket.ticketNo).Nodup := by
          rw [List.map_append, List.map_singleton, List.nodup_append]
          refine ⟨hnd, by simp, ?_⟩
          intro x hx hx2
          simp only [List.mem_singleton] at hx2
          subst hx2
          exact hfresh _ hx rand (List.mem_cons_self _ _) rfl
        have hfresh2 : ∀ s ∈ (st.tickets ++ [newTicketOf st req now rand]).map
            Ticket.ticketNo, ∀ r ∈ createRands ops, s ≠ generateTicketId r := by
          intro s hs r hr2
          rw [List.map_append, List.map_singleton] at hs
          rcases List.mem_append.mp hs with hs | hs
          · exact hfresh s hs r (List.mem_cons_of_mem _ hr2)
          · simp only [List.mem_singleton] at hs
            subst hs
            intro he
            exact hrand_notin (generateTicketId_inj he ▸ hr2)
        exact ih _ hnd2 (List.Nodup.of_cons hrands) hfresh2
    · have hnc : ∀ req now rand, op ≠ Op.create req now rand := by
        intro req now rand he
        exact hisc ⟨req, now, rand, he⟩
      have hcr : createRands (op :: ops) = createRands ops := by
        cases op with
        | create req now rand => exact absurd rfl (hnc req now rand)
        | update id req now => rfl
        | resolve id notes operatorQ now => rfl
        | decline id notes operatorQ now => rfl
        | deleteOp id => rfl
        | list statusQ page limit => rfl
      rw [hcr] at hrands hfresh
      obtain ⟨hstep1, hstep2⟩ := tno_step_other op hnc
      exact ih _ (hstep1 hnd) hrands (fun s hs r hr2 => hfresh s (hstep2 s hs) r hr2)

/-- Claim C3 (amended): over any request sequence within one process
lifetime, the internal identifiers of the stored tickets are pairwise
distinct, because each one embeds the strictly increasing ticketCounter;
the display numbers, however, are the constant prefix TKT- plus the random
suffix only, so they are pairwise distinct only under the additional
assumption that the random suffixes drawn by the create requests are
pairwise distinct. -/
theorem ticket_ids_unique (ops : List Op) :
    ((runOps initState ops).tickets.map Ticket._id).Nodup ∧
    ((createRands ops).Nodup →
      ((runOps initState ops).tickets.map Ticket.ticketNo).Nodup) := by
  constructor
  · exact (uidsOk_runOps ops initState
      ⟨by simp [initState], by simp [initState]⟩).1
  · intro h
    exact tno_nodup_runOps ops initState (by simp [initState]) h
      (by simp [initState])

/-- The two-create sequence with distinct random suffixes. -/
def opsAB : List Op := [.create rqA 0 "AAAA", .create rqB 1 "BBBB"]

unseal Substring.takeWhileAux Substring.takeRightWhileAux in
/-- Witness for C3: two creates with distinct random suffixes yield pairwise
distinct identifiers and pairwise distinct display numbers. -/
theorem ticket_ids_unique_witness :
    (createRands opsAB).Nodup ∧
    ((runOps initState opsAB).tickets.map Ticket._id).Nodup ∧
    ((runOps initState opsAB).tickets.map Ticket.ticketNo).Nodup :=
  ⟨by decide, (ticket_ids_unique opsAB).1, (ticket_ids_unique opsAB).2 (by decide)⟩

unseal Substring.takeWhileAux Substring.takeRightWhileAux in
/-- Counterexample to claim C3 as stated: when Math.random yields the same
four-character suffix twice, two created tickets share the display number
TKT-AAAA (the display number embeds no counter in src/server.js), so the
display numbers are not collision-free. -/
theorem ticketNo_collision :
    ((runOps initState [.create rqA 0 "AAAA", .create rqB 1 "AAAA"]).tickets.map
      Ticket.ticketNo) = ["TKT-AAAA", "TKT-AAAA"] ∧
    ¬ ((runOps initState [.create rqA 0 "AAAA", .create rqB 1 "AAAA"]).tickets.map
      Ticket.ticketNo).Nodup := by
  constructor
  · decide
  · decide

/-! ### Claim C10: the part_000 variant hides the photo field in responses -/

/-- The photo payload object stored by the part_000 create handler: base64
data, declared media type and byte size. -/
structure PhotoPayload where
  data : String
  contentType : String
  size : Nat
deriving DecidableEq, Repr

/-- A ticket record of the part_000 variant: photo is either absent (the
empty placeholder for requests without an upload) or the payload object. -/
structure TicketV2 where
  _id : String
  ticketNo : String
  name : String
  division : String
  priority : String
  description : String
  status : String
  assignee : String
  photo : Option PhotoPayload
  notes : String
  operator : String
  createdAt : Nat
  updatedAt : Nat
deriving DecidableEq, Repr

/-- The rest-object produced by destructuring photo out of a ticket: it
carries every field except photo, which does not exist in this type at
all. -/
structure TicketView where
  _id : String
  ticketNo : String
  name : String
  division : String
  priority : String
  description : String
  status : String
  assignee : String
  notes : String
  operator : String
  createdAt : Nat
  updatedAt : Nat
deriving DecidableEq, Repr

/-- Strips the photo field, keeping every other field unchanged. -/
def TicketV2.withoutPhoto (t : TicketV2) : TicketView :=
  { _id := t._id, ticketNo := t.ticketNo, name := t.name, division := t.division,
    priority := t.priority, description := t.description, status := t.status,
    assignee := t.assignee, notes := t.notes, operator := t.operator,
    createdAt := t.createdAt, updatedAt := t.updatedAt }

/-- Lookup predicate of the part_000 variant (same shape as server.js). -/
def matchesIdV2 (id : String) (t : TicketV2) : Bool :=
  t._id == id || t.ticketNo == id

/-- GET /api/tickets/:id handler of part_000: find the ticket, then respond
with the rest-object that excludes photo; the stored array is untouched. -/
def getTicketV2 (tickets : List TicketV2) (id : String) : Option TicketView :=
  (tickets.find? (matchesIdV2 id)).map TicketV2.withoutPhoto

/-- generateTicketId of part_000: TKT-, base-36 timestamp, dash, random
suffix, uppercased (the two base-36 renderings are environment inputs). -/
def generateTicketIdV2 (ts rand : String) : String :=
  ("TKT-" ++ ts ++ "-" ++ rand).toUpper

/-- Request body of the part_000 create handler; file carries the photo
payload object when an upload is present. -/
structure CreateRequestV2 where
  name : Option String
  division : Option String
  priority : Option String
  description : Option String
  file : Option PhotoPayload
deriving DecidableEq, Repr

/-- Outcome of the part_000 create handler: the 201 response carries the
rest-object without photo plus the new internal id. -/
inductive CreateOutcomeV2 where
  | badRequest
  | created (view : TicketView) (ticketId : String)
deriving DecidableEq, Repr

/-- The record built by the part_000 create handler for a valid request. -/
def newTicketOfV2 (counter : Nat) (req : CreateRequestV2) (now : Nat)
    (ts rand : String) : TicketV2 :=
  { _id := mkTicketUid now counter
    ticketNo := generateTicketIdV2 ts rand
    name := (req.name.getD "").trim
    division := (req.division.getD "").trim
    priority := strOr req.priority "Normal"
    description := (req.description.getD "").trim
    status := "Belum"
    assignee := ""
    photo := req.file
    notes := ""
    operator := ""
    createdAt := now
    updatedAt := now }

/-- POST /api/tickets handler of part_000: same validation as server.js; the
stored record keeps the photo payload, while the response ticket is the
rest-object with photo destructured away. -/
def createTicketV2 (tickets : List TicketV2) (counter : Nat) (req : CreateRequestV2)
    (now : Nat) (ts rand : String) : CreateOutcomeV2 × List TicketV2 × Nat :=
  if falsy req.name || falsy req.division || falsy req.description then
    (.badRequest, tickets, counter)
  else
    let t : TicketV2 := newTicketOfV2 counter req now ts rand
    (.created t.withoutPhoto t._id, tickets ++ [t], counter + 1)

/-- Claim C10: in the part_000 variant, the response of getTicket and the
ticket object in the create response are rest-objects of a type that has no
photo field at all, even when the stored record holds a photo payload: a
valid create with an uploaded payload stores the payload unchanged in the
appended record while responding with its photo-free view, and getTicket
responds with the photo-free view of the found record (agreeing with it on
every other field) without touching the stored collection. -/
theorem photo_hidden_v2 (tickets : List TicketV2) (counter : Nat)
    (req : CreateRequestV2) (now : Nat) (ts rand : String) (p : PhotoPayload)
    (h1 : falsy req.name = false) (h2 : falsy req.division = false)
    (h3 : falsy req.description = false) (hp : req.file = some p) :
    (∃ t : TicketV2,
      createTicketV2 tickets counter req now ts rand =
        (.created t.withoutPhoto t._id, tickets ++ [t], counter + 1) ∧
      t.photo = some p) ∧
    (∀ (l : List TicketV2) (id : String) (t : TicketV2),
      l.find? (matchesIdV2 id) = some t →
      getTicketV2 l id = some t.withoutPhoto ∧
      t.withoutPhoto._id = t._id ∧ t.withoutPhoto.ticketNo = t.ticketNo ∧
      t.withoutPhoto.name = t.name ∧ t.withoutPhoto.division = t.division ∧
      t.withoutPhoto.priority = t.priority ∧
      t.withoutPhoto.description = t.description ∧
      t.withoutPhoto.status = t.status ∧ t.withoutPhoto.assignee = t.assignee ∧
      t.withoutPhoto.notes = t.notes ∧ t.withoutPhoto.operator = t.operator ∧
      t.withoutPhoto.createdAt = t.createdAt ∧
      t.withoutPhoto.updatedAt = t.updatedAt) := by
  constructor
  · refine ⟨newTicketOfV2 counter req now ts rand, ?_, ?_⟩
    · rw [createTicketV2, if_neg (by simp [h1, h2, h3])]
    · show req.file = some p
      exact hp
  · intro l id t hfind
    refine ⟨?_, rfl, rfl, rfl, rfl, rfl, rfl, rfl, rfl, rfl, rfl, rfl, rfl⟩
    rw [getTicketV2, hfind, Option.map_some']

/-- A sample photo payload. -/
def pSample : PhotoPayload := { data := "QUJD", contentType := "image/png", size := 3 }

/-- A valid part_000 create request carrying the sample payload. -/
def rqP : CreateRequestV2 :=
  { name := some "a", division := some "d", priority := none,
    description := some "x", file := some pSample }

/-- Witness for C10 at a concrete upload request. -/
theorem photo_hidden_v2_witness :
    (∃ t : TicketV2,
      createTicketV2 [] 1 rqP 0 "T0" "AAAA" =
        (.created t.withoutPhoto t._id, [] ++ [t], 1 + 1) ∧
      t.photo = some pSample) ∧
    (∀ (l : List TicketV2) (id : String) (t : TicketV2),
      l.find? (matchesIdV2 id) = some t →
      getTicketV2 l id = some t.withoutPhoto ∧
      t.withoutPhoto._id = t._id ∧ t.withoutPhoto.ticketNo = t.ticketNo ∧
      t.withoutPhoto.name = t.name ∧ t.withoutPhoto.division = t.division ∧
      t.withoutPhoto.priority = t.priority ∧
      t.withoutPhoto.description = t.description ∧
      t.withoutPhoto.status = t.status ∧ t.withoutPhoto.assignee = t.assignee ∧
      t.withoutPhoto.notes = t.notes ∧ t.withoutPhoto.operator = t.operator ∧
      t.withoutPhoto.createdAt = t.createdAt ∧
      t.withoutPhoto.updatedAt = t.updatedAt) :=
  photo_hidden_v2 [] 1 rqP 0 "T0" "AAAA" pSample (by decide) (by decide) (by decide) rfl

end ITBackend
